import Mathlib

set_option maxHeartbeats 1000000
set_option maxRecDepth 4000

/- Shallow embedding of the travel-agent repository (src/agent/tools.py and
src/agent/agent.py).  Python strings are modelled through their character
lists; the file system, the wall clock and the remote planner-executor are
modelled as explicit state and oracles.  All definitions are executable. -/

/-- Whitespace as recognised by Python str.strip and str.split. -/
def isPyWs (c : Char) : Bool :=
  c = ' ' || c = '\t' || c = '\n' || c = '\r' || c = '\x0b' || c = '\x0c'

/-- Python str.strip with no argument: drop whitespace at both ends. -/
def pyStrip (s : String) : String :=
  String.mk (((s.data.dropWhile isPyWs).reverse.dropWhile isPyWs).reverse)

/-- Helper for pySplit: scan the characters, cutting at whitespace runs;
cur holds the characters of the current token in reverse. -/
def splitWsAux : List Char → List Char → List String
  | [], [] => []
  | [], cur => [String.mk cur.reverse]
  | c :: rest, cur =>
    if isPyWs c then
      match cur with
      | [] => splitWsAux rest []
      | _ :: _ => String.mk cur.reverse :: splitWsAux rest []
    else splitWsAux rest (c :: cur)

/-- Python str.split with no separator: whitespace-delimited tokens, empty
pieces discarded. -/
def pySplit (s : String) : List String := splitWsAux s.data []

/-- Python str.lower on the character list (ASCII model of .lower()). -/
def strLower (s : String) : String := String.mk (s.data.map Char.toLower)

/-- Python slicing s[:n] on text: the first n characters (code points). -/
def strTake (s : String) (n : Nat) : String := String.mk (s.data.take n)

/-- One conversation record as built by MemoryTool.add_conversation
(tools.py lines 389 to 394). -/
structure Conversation where
  user_query : String
  agent_response : String
  summary : String
  timestamp : String
deriving DecidableEq

/-- The persisted memory document: a JSON object with the two top-level
fields conversations and context (the latter a reserved, unused map). -/
structure Memory where
  conversations : List Conversation
  context : List (String × String)
deriving DecidableEq

/-- The default document used by _load_memory on a missing or bad file. -/
def emptyMemory : Memory := { conversations := [], context := [] }

/-- States of the backing memory file that matter to loading: the file can
be missing, unreadable (invalid encoding), readable but not valid JSON, or
hold a previously stored document. -/
inductive FileState
  | absent
  | unreadable
  | invalidJson
  | stored (doc : Memory)
deriving DecidableEq

/-- The memory file together with its metadata: content state, last
modification time, and whether a write to it will succeed. -/
structure MemFile where
  state : FileState
  mtime : Int
  writable : Bool
deriving DecidableEq

/-- The body of the try block of MemoryTool._load_memory (tools.py lines
369 to 373): a missing file yields the default document without an
exception; an unreadable file or invalid JSON raises. -/
def load_memory_attempt : FileState → Except String Memory
  | FileState.absent => Except.ok emptyMemory
  | FileState.unreadable => Except.error "OSError"
  | FileState.invalidJson => Except.error "JSONDecodeError"
  | FileState.stored doc => Except.ok doc

/-- MemoryTool._load_memory: any exception is caught, logged, and the
default empty document is returned (tools.py lines 367 to 376). -/
def load_memory (fs : FileState) : Memory :=
  match load_memory_attempt fs with
  | Except.ok m => m
  | Except.error _ => emptyMemory

/-- The raw file write inside the try block of MemoryTool.save_memory
(tools.py lines 381 to 382): on success the file now stores the document
and its modification time becomes the current time. -/
def writeMemoryFile (f : MemFile) (m : Memory) (now : Int) : Except String MemFile :=
  if f.writable then
    Except.ok { state := FileState.stored m, mtime := now, writable := f.writable }
  else Except.error "OSError"

/-- MemoryTool.save_memory: a write failure is logged and swallowed, the
file is left as it was (tools.py lines 378 to 385). -/
def save_memory (f : MemFile) (m : Memory) (now : Int) : MemFile :=
  match writeMemoryFile f m now with
  | Except.ok f2 => f2
  | Except.error _ => f

/-- The record built at the top of add_conversation: the summary defaults
to the first 200 characters of the response, the timestamp is str of the
memory file modification time when the file exists and str of the empty
string (that is, the empty string) otherwise (tools.py lines 389 to 394). -/
def mkConversation (f : MemFile) (user_query agent_response : String)
    (summary : Option String) : Conversation :=
  { user_query := user_query
    agent_response := agent_response
    summary := summary.getD (strTake agent_response 200)
    timestamp := if f.state = FileState.absent then "" else toString f.mtime }

/-- The append-then-truncate step of add_conversation (tools.py lines 395
to 398): append, and when the length exceeds 100 keep the last 100. -/
def appendTurn (cs : List Conversation) (c : Conversation) : List Conversation :=
  if (cs ++ [c]).length > 100 then (cs ++ [c]).drop ((cs ++ [c]).length - 100)
  else cs ++ [c]

/-- MemoryTool.add_conversation (tools.py lines 387 to 399): build the
record from the pre-write file state, append it, truncate to the cap, and
save the document (write failures swallowed by save_memory). -/
def add_conversation (m : Memory) (f : MemFile) (now : Int)
    (user_query agent_response : String) (summary : Option String) : Memory × MemFile :=
  let conv := mkConversation f user_query agent_response summary
  let m2 : Memory := { conversations := appendTurn m.conversations conv, context := m.context }
  (m2, save_memory f m2 now)

/-- MemoryTool.get_context (tools.py lines 401 to 413): empty text on an
empty store; otherwise the last five records, two lines each, joined by
newlines. -/
def get_context (cs : List Conversation) : String :=
  if cs.isEmpty then ""
  else
    let recent := cs.drop (cs.length - 5)
    let context_parts := recent.foldl
      (fun acc conv =>
        acc ++ ["Пользователь: " ++ conv.user_query, "Агент: " ++ conv.summary]) []
    String.intercalate "\n" context_parts

/-- TerminalTool.ALLOWED_COMMANDS (tools.py line 247). -/
def ALLOWED_COMMANDS : List String :=
  ["ls", "dir", "pwd", "cd", "echo", "cat", "type", "date", "time"]

/-- Oracle for subprocess.run: the command completes, exceeds the 10s
timeout, or raises some other exception. -/
inductive SubpOutcome
  | completed (stdout stderr : String) (returncode : Int)
  | timedOut
  | failed (msg : String)
deriving DecidableEq

/-- The dictionary returned by TerminalTool.execute: an error entry, or
the command with its stdout, stderr and return code. -/
inductive ExecResult
  | errorRes (msg : String)
  | output (command stdout stderr : String) (returncode : Int)
deriving DecidableEq

/-- cmd_parts[0] of command.strip().split(), when cmd_parts is non-empty
(tools.py line 264). -/
def firstToken (command : String) : Option String :=
  (pySplit (pyStrip command)).head?

/-- TerminalTool.execute (tools.py lines 250 to 293) with subprocess.run
as an oracle; the boolean records whether subprocess.run was invoked. -/
def execute (command : String) (sys : SubpOutcome) : ExecResult × Bool :=
  match firstToken command with
  | none => (ExecResult.errorRes "Пустая команда", false)
  | some t =>
    let base_cmd := strLower t
    if base_cmd ∈ ALLOWED_COMMANDS then
      match sys with
      | SubpOutcome.completed so se rc => (ExecResult.output command so se rc, true)
      | SubpOutcome.timedOut =>
          (ExecResult.errorRes "Команда превысила время выполнения", true)
      | SubpOutcome.failed m =>
          (ExecResult.errorRes ("Ошибка при выполнении команды: " ++ m), true)
    else
      (ExecResult.errorRes ("Команда " ++ base_cmd ++ " не разрешена для безопасности"), false)

/-- Result of FileIOTool.write_file as seen by the tracking wrapper: a
success dictionary carrying the absolute path, or an error dictionary. -/
inductive WriteOutcome
  | success (abs_path : String)
  | failure (msg : String)
deriving DecidableEq

/-- Result of QRCodeTool.generate_qr as seen by the tracking wrapper: a
success with a saved-file path, a success with only an inline base64
preview (no filename given), or an error. -/
inductive QrOutcome
  | savedFile (abs_path : String)
  | inlineImage
  | failure (msg : String)
deriving DecidableEq

/-- One tool invocation made by the planner during a turn; only the
file-write and QR wrappers touch created_files, every other tool call is
collapsed into otherToolCall. -/
inductive ToolEvent
  | writeFileCall (r : WriteOutcome)
  | qrCall (r : QrOutcome)
  | otherToolCall
deriving DecidableEq

/-- Effect of one tool invocation on self.created_files, following
_write_file_with_tracking and _generate_qr_with_tracking (agent.py lines
95 to 113): a path is appended exactly for a success status with a path. -/
def trackEvent (created : List String) : ToolEvent → List String
  | ToolEvent.writeFileCall (WriteOutcome.success p) => created ++ [p]
  | ToolEvent.qrCall (QrOutcome.savedFile p) => created ++ [p]
  | _ => created

/-- created_files accumulated during one planner invocation, starting from
the list freshly reset at the top of run (agent.py line 232). -/
def runTools (events : List ToolEvent) : List String :=
  events.foldl trackEvent []

/-- Outcome of one agent_executor.invoke call: the tool calls it made, and
either the output entry of its result dictionary or an exception text. -/
inductive PlannerRun
  | completes (events : List ToolEvent) (output : Option String)
  | raises (events : List ToolEvent) (msg : String)

/-- The mutable state of a TravelAgent relevant to run: the created_files
list, the in-memory document of its MemoryTool, and the memory file. -/
structure AgentState where
  created_files : List String
  memory : Memory
  mem_file : MemFile

/-- The input handed to the planner (agent.py lines 243 to 247): the
memory context is prepended when it is non-empty. -/
def enhancedInput (m : Memory) (user_input : String) : String :=
  let context := get_context m.conversations
  if context ≠ "" then
    "Контекст предыдущих разговоров:\n" ++ context ++ "\n\nТекущий запрос: " ++ user_input
  else user_input

/-- TravelAgent.run (agent.py lines 219 to 274): reset created_files,
build the planner input, invoke the planner once; on completion persist
the turn and return the reply with the artifact list; on any exception
persist the error text as the turn and return it with an empty list. -/
def run (ag : AgentState) (planner : String → PlannerRun) (now : Int)
    (user_input : String) : (String × List String) × AgentState :=
  match planner (enhancedInput ag.memory user_input) with
  | PlannerRun.completes events output =>
    let created_files := runTools events
    let response := output.getD "Извините, не удалось обработать запрос."
    let r := add_conversation ag.memory ag.mem_file now user_input response none
    ((response, created_files),
      { created_files := created_files, memory := r.1, mem_file := r.2 })
  | PlannerRun.raises events msg =>
    let created_files := runTools events
    let error_msg := "Произошла ошибка: " ++ msg
    let r := add_conversation ag.memory ag.mem_file now user_input error_msg none
    ((error_msg, []),
      { created_files := created_files, memory := r.1, mem_file := r.2 })

/-- Specification-side view: the last n elements of a list. -/
def lastN (n : Nat) (l : List α) : List α := l.drop (l.length - n)

/-- Appending a whole sequence of records one at a time. -/
def appendAll (cs : List Conversation) (ts : List Conversation) : List Conversation :=
  ts.foldl appendTurn cs

/-- Specification-side view: the path a tool invocation contributes to the
artifact list, if any. -/
def trackedPath : ToolEvent → Option String
  | ToolEvent.writeFileCall (WriteOutcome.success p) => some p
  | ToolEvent.qrCall (QrOutcome.savedFile p) => some p
  | _ => none

/-- A memory file that does not exist yet and accepts writes. -/
def fAbsent : MemFile := { state := FileState.absent, mtime := 0, writable := true }

/-- A memory file that exists and cannot be written. -/
def fReadOnly : MemFile := { state := FileState.stored emptyMemory, mtime := 3, writable := false }

/-- A memory file that exists, was last modified at time 5, and accepts writes. -/
def fStored : MemFile := { state := FileState.stored emptyMemory, mtime := 5, writable := true }

/-- A fixed conversation record for concrete witnesses. -/
def convA : Conversation :=
  { user_query := "q", agent_response := "r", summary := "s", timestamp := "" }

/-- A fresh agent for concrete witnesses. -/
def agentA : AgentState := { created_files := [], memory := emptyMemory, mem_file := fAbsent }

/-- A planner oracle that raises on every input. -/
def plannerRaises : String → PlannerRun := fun _ => PlannerRun.raises [] "boom"

/-- The truncating append rewritten without the conditional: it always
keeps a suffix of the extended list, with the new record last. -/
theorem appendTurn_eq (cs : List Conversation) (c : Conversation) :
    appendTurn cs c = cs.drop (cs.length + 1 - 100) ++ [c] := by
  unfold appendTurn
  have hlen : (cs ++ [c]).length = cs.length + 1 := by simp
  rw [hlen]
  by_cases h : cs.length + 1 > 100
  · rw [if_pos h, List.drop_append_eq_append_drop]
    have h1 : cs.length + 1 - 100 - cs.length = 0 := by omega
    rw [h1, List.drop_zero]
  · rw [if_neg h]
    have h1 : cs.length + 1 - 100 = 0 := by omega
    rw [h1, List.drop_zero]

/-- The truncating append keeps exactly the last 100 of the extended list. -/
theorem appendTurn_eq_lastN (cs : List Conversation) (c : Conversation) :
    appendTurn cs c = lastN 100 (cs ++ [c]) := by
  rw [appendTurn_eq]
  unfold lastN
  have hlen : (cs ++ [c]).length = cs.length + 1 := by simp
  rw [hlen, List.drop_append_eq_append_drop]
  have h1 : cs.length + 1 - 100 - cs.length = 0 := by omega
  rw [h1, List.drop_zero]

/-- Taking the last n elements twice across an append collapses. -/
theorem lastN_lastN_append (n : Nat) (m l : List α) :
    lastN n (lastN n m ++ l) = lastN n (m ++ l) := by
  unfold lastN
  rw [List.drop_append_eq_append_drop, List.drop_append_eq_append_drop, List.drop_drop]
  simp only [List.length_append, List.length_drop]
  congr 1
  · congr 1
    omega
  · congr 1
    omega

/-- Folding the truncating append over a batch keeps the last 100 of the
concatenation. -/
theorem appendAll_lastN (ts : List Conversation) :
    ∀ m : List Conversation, appendAll (lastN 100 m) ts = lastN 100 (m ++ ts) := by
  induction ts with
  | nil =>
    intro m
    simp [appendAll]
  | cons c ts ih =>
    intro m
    have h1 : appendAll (lastN 100 m) (c :: ts) = appendAll (appendTurn (lastN 100 m) c) ts := rfl
    rw [h1, appendTurn_eq_lastN, lastN_lastN_append]
    rw [ih (m ++ [c]), List.append_assoc, List.singleton_append]

/-- Appending a batch of records to the empty store keeps its last 100. -/
theorem appendAll_nil_eq (ts : List Conversation) :
    appendAll [] ts = lastN 100 ts := by
  have h := appendAll_lastN ts []
  simpa [lastN] using h

/-- The truncating append leaves at most 100 records. -/
theorem length_appendTurn_le (cs : List Conversation) (c : Conversation) :
    (appendTurn cs c).length ≤ 100 := by
  rw [appendTurn_eq]
  simp only [List.length_append, List.length_drop, List.length_cons, List.length_nil]
  omega

/-- The newest record is the last one stored. -/
theorem getLast?_appendTurn (cs : List Conversation) (c : Conversation) :
    (appendTurn cs c).getLast? = some c := by
  rw [appendTurn_eq]
  exact List.getLast?_concat _

/-- Every stored record is the new one or one of the old ones, unchanged. -/
theorem mem_appendTurn (cs : List Conversation) (c x : Conversation)
    (h : x ∈ appendTurn cs c) : x = c ∨ x ∈ cs := by
  rw [appendTurn_eq] at h
  rcases List.mem_append.mp h with h1 | h1
  · exact Or.inr (List.mem_of_mem_drop h1)
  · exact Or.inl (List.mem_singleton.mp h1)

/-- One tracking step appends exactly the tracked path, if any. -/
theorem trackEvent_eq (created : List String) (e : ToolEvent) :
    trackEvent created e = created ++ (trackedPath e).toList := by
  cases e with
  | writeFileCall r => cases r <;> simp [trackEvent, trackedPath]
  | qrCall r => cases r <;> simp [trackEvent, trackedPath]
  | otherToolCall => simp [trackEvent, trackedPath]

/-- Folding the tracking step lists the tracked paths in invocation order. -/
theorem foldl_trackEvent (events : List ToolEvent) :
    ∀ created : List String,
      events.foldl trackEvent created = created ++ events.filterMap trackedPath := by
  induction events with
  | nil =>
    intro created
    simp
  | cons e es ih =>
    intro created
    rw [List.foldl_cons, ih, trackEvent_eq]
    cases h : trackedPath e <;> simp [h, List.filterMap_cons, List.append_assoc]

/-- created_files after one planner invocation: exactly the successful
file-write and QR-to-file paths, in invocation order. -/
theorem runTools_eq (events : List ToolEvent) :
    runTools events = events.filterMap trackedPath := by
  have h := foldl_trackEvent events []
  simpa [runTools] using h

/-- Accumulating two lines per record equals flattening the per-record
two-line blocks. -/
theorem foldl_two_lines (A B : Conversation → String) (l : List Conversation) :
    ∀ acc : List String,
      l.foldl (fun acc conv => acc ++ [A conv, B conv]) acc
        = acc ++ (l.map fun c => [A c, B c]).flatten := by
  induction l with
  | nil =>
    intro acc
    simp
  | cons c cst ih =>
    intro acc
    rw [List.foldl_cons, ih, List.map_cons, List.flatten_cons, List.append_assoc]

/-- Claim C1: after every append the stored conversation sequence has
length at most 100; when more than 100 turns are appended the store holds
exactly the 100 most recently appended turns in insertion order; in
particular appending 101 turns with user queries q0 to q100 leaves 100
stored turns whose first user query is q1. -/
theorem c1_memory_cap :
    (∀ (m : Memory) (f : MemFile) (now : Int) (uq ar : String) (s : Option String),
      (add_conversation m f now uq ar s).1.conversations.length ≤ 100)
    ∧ (∀ ts : List Conversation, 100 < ts.length →
        appendAll [] ts = ts.drop (ts.length - 100))
    ∧ ((appendAll [] ((List.range 101).map
          (fun i => mkConversation fAbsent ("q" ++ toString i) "" none))).length = 100
       ∧ ((appendAll [] ((List.range 101).map
            (fun i => mkConversation fAbsent ("q" ++ toString i) "" none))).head?).map
            Conversation.user_query = some "q1") := by
  refine ⟨?_, ?_, ?_, ?_⟩
  · intro m f now uq ar s
    exact length_appendTurn_le _ _
  · intro ts _
    rw [appendAll_nil_eq]
    rfl
  · rw [appendAll_nil_eq]
    simp [lastN, List.length_drop, List.length_map, List.length_range]
  · rw [appendAll_nil_eq]
    have hl : ((List.range 101).map
        (fun i => mkConversation fAbsent ("q" ++ toString i) "" none)).length = 101 := by
      simp
    unfold lastN
    rw [hl, List.head?_drop]
    simp only [List.getElem?_map, List.getElem?_range]
    decide

/-- Witness for C1 at a concrete over-full batch of 101 records. -/
theorem c1_memory_cap_witness :
    appendAll [] (List.replicate 101 convA)
      = (List.replicate 101 convA).drop ((List.replicate 101 convA).length - 100) :=
  c1_memory_cap.2.1 (List.replicate 101 convA) (by decide)

/-- Claim C2: when the planner invocation raises, run catches the
exception, returns the error text with an empty artifact list, and still
appends a turn recording the raw utterance and that error text. -/
theorem c2_planner_failure_caught
    (cf : List String) (mem : Memory) (mf : MemFile)
    (planner : String → PlannerRun) (now : Int) (ui : String)
    (events : List ToolEvent) (msg : String)
    (h : planner (enhancedInput mem ui) = PlannerRun.raises events msg) :
    (run ⟨cf, mem, mf⟩ planner now ui).1 = ("Произошла ошибка: " ++ msg, [])
    ∧ (run ⟨cf, mem, mf⟩ planner now ui).2.memory.conversations.getLast?
        = some (mkConversation mf ui ("Произошла ошибка: " ++ msg) none) := by
  constructor
  · simp only [run, h]
  · simp only [run, h]
    show (appendTurn mem.conversations
        (mkConversation mf ui ("Произошла ошибка: " ++ msg) none)).getLast? = _
    exact getLast?_appendTurn _ _

/-- Witness for C2: a planner that raises boom, on a fresh agent. -/
theorem c2_planner_failure_caught_witness :
    (run ⟨[], emptyMemory, fAbsent⟩ plannerRaises 0 "hi").1
        = ("Произошла ошибка: " ++ "boom", [])
    ∧ (run ⟨[], emptyMemory, fAbsent⟩ plannerRaises 0 "hi").2.memory.conversations.getLast?
        = some (mkConversation fAbsent "hi" ("Произошла ошибка: " ++ "boom") none) :=
  c2_planner_failure_caught [] emptyMemory fAbsent plannerRaises 0 "hi" [] "boom" rfl

/-- Claim C3: loading from a missing, undecodable, or invalid-JSON file
never raises (load_memory is total, the exception is caught inside) and
yields the empty store with no conversations. -/
theorem c3_load_fallback :
    load_memory FileState.absent = emptyMemory
    ∧ load_memory FileState.unreadable = emptyMemory
    ∧ load_memory FileState.invalidJson = emptyMemory
    ∧ emptyMemory.conversations = [] :=
  ⟨rfl, rfl, rfl, rfl⟩

/-- Claim C4: appending never raises even when the backing write fails:
the raw write does fail, save_memory swallows it leaving the file as it
was, and the in-memory sequence still holds the new turn as its last
element. -/
theorem c4_append_swallows_write_failure
    (m : Memory) (f : MemFile) (now : Int) (uq ar : String) (s : Option String)
    (h : f.writable = false) :
    writeMemoryFile f (add_conversation m f now uq ar s).1 now = Except.error "OSError"
    ∧ (add_conversation m f now uq ar s).2 = f
    ∧ (add_conversation m f now uq ar s).1.conversations.getLast?
        = some (mkConversation f uq ar s)
    ∧ mkConversation f uq ar s ∈ (add_conversation m f now uq ar s).1.conversations := by
  refine ⟨?_, ?_, ?_, ?_⟩
  · simp [writeMemoryFile, h]
  · simp [add_conversation, save_memory, writeMemoryFile, h]
  · exact getLast?_appendTurn _ _
  · show _ ∈ appendTurn m.conversations (mkConversation f uq ar s)
    rw [appendTurn_eq]
    exact List.mem_append_right _ (List.mem_singleton_self _)

/-- Witness for C4 on a memory file that rejects writes. -/
theorem c4_append_swallows_write_failure_witness :
    writeMemoryFile fReadOnly (add_conversation emptyMemory fReadOnly 0 "u" "r" none).1 0
        = Except.error "OSError"
    ∧ (add_conversation emptyMemory fReadOnly 0 "u" "r" none).2 = fReadOnly
    ∧ (add_conversation emptyMemory fReadOnly 0 "u" "r" none).1.conversations.getLast?
        = some (mkConversation fReadOnly "u" "r" none)
    ∧ mkConversation fReadOnly "u" "r" none
        ∈ (add_conversation emptyMemory fReadOnly 0 "u" "r" none).1.conversations :=
  c4_append_swallows_write_failure emptyMemory fReadOnly 0 "u" "r" none rfl

/-- Claim C5: the artifact list is reset at the start of every run call,
whatever a previous call accumulated, and the returned artifacts are
exactly the paths of the successful file-write and QR-to-file calls of the
current turn, in invocation order. -/
theorem c5_artifacts_reset_per_run
    (prev : List String) (mem : Memory) (mf : MemFile)
    (planner : String → PlannerRun) (now : Int) (ui : String) :
    (run ⟨prev, mem, mf⟩ planner now ui).1.2
      = (match planner (enhancedInput mem ui) with
         | PlannerRun.completes events _ => events.filterMap trackedPath
         | PlannerRun.raises _ _ => []) := by
  cases hp : planner (enhancedInput mem ui) with
  | completes events output => simp only [run, hp, runTools_eq]
  | raises events msg => simp only [run, hp]

/-- Claim C6: the context of an empty store is empty text; in general it
is the newline-joined flattening of two lines per record, user-query line
then summary line, over the last five stored records (at most five, a
suffix of the store, so in stored order with the newest last). -/
theorem c6_context_last_five (cs : List Conversation) :
    get_context [] = ""
    ∧ get_context cs
        = String.intercalate "\n"
            (((lastN 5 cs).map (fun c =>
                ["Пользователь: " ++ c.user_query, "Агент: " ++ c.summary])).flatten)
    ∧ (lastN 5 cs).length ≤ 5
    ∧ lastN 5 cs <:+ cs := by
  refine ⟨rfl, ?_, ?_, List.drop_suffix _ _⟩
  · cases cs with
    | nil => rfl
    | cons c cst =>
      show String.intercalate "\n"
          (((c :: cst).drop ((c :: cst).length - 5)).foldl
            (fun acc conv =>
              acc ++ ["Пользователь: " ++ conv.user_query, "Агент: " ++ conv.summary]) [])
        = _
      rw [foldl_two_lines]
      simp [lastN]
  · simp only [lastN, List.length_drop]
    omega

/-- Claim C7: with no explicit summary the stored summary is the first 200
characters of the full response, computed at append time; a later append
leaves every previously stored record unchanged (each stored record is the
new one or one of the old ones); context rendering is a pure function of
the store returning only text, so it mutates no stored turn. -/
theorem c7_summary_fixed_at_append (f : MemFile) (uq ar : String) :
    (mkConversation f uq ar none).summary = strTake ar 200
    ∧ (∀ (m : Memory) (now : Int) (s : Option String) (c : Conversation),
        c ∈ (add_conversation m f now uq ar s).1.conversations →
        c = mkConversation f uq ar s ∨ c ∈ m.conversations) := by
  constructor
  · rfl
  · intro m now s c hc
    exact mem_appendTurn _ _ _ hc

/-- Witness for C7 at a concrete append to the empty store. -/
theorem c7_summary_fixed_at_append_witness :
    (mkConversation fAbsent "u" "r" none).summary = strTake "r" 200
    ∧ (mkConversation fAbsent "u" "r" none = mkConversation fAbsent "u" "r" none
       ∨ mkConversation fAbsent "u" "r" none ∈ emptyMemory.conversations) :=
  ⟨(c7_summary_fixed_at_append fAbsent "u" "r").1,
   (c7_summary_fixed_at_append fAbsent "u" "r").2 emptyMemory 0 none _ (by decide)⟩

/-- Claim C8 as stated is refuted by the command LS: its first
whitespace-separated token LS is not a member of the allow-list, yet the
adapter lowercases the token before the membership test, accepts the
command, and invokes the subprocess. -/
theorem c8_counterexample :
    firstToken "LS" = some "LS"
    ∧ "LS" ∉ ALLOWED_COMMANDS
    ∧ (execute "LS" (SubpOutcome.completed "" "" 0)).2 = true
    ∧ (execute "LS" (SubpOutcome.completed "" "" 0)).1 = ExecResult.output "LS" "" "" 0 := by
  refine ⟨by decide, by decide, by decide, by decide⟩

/-- Claim C8 amended: for every command string whose first
whitespace-separated token, once lowercased, is outside the fixed
allow-list, the adapter returns an error result and does not invoke any
subprocess. -/
theorem c8_rejects_outside_allowlist
    (command : String) (sys : SubpOutcome) (t : String)
    (h1 : firstToken command = some t) (h2 : strLower t ∉ ALLOWED_COMMANDS) :
    execute command sys
      = (ExecResult.errorRes ("Команда " ++ strLower t ++ " не разрешена для безопасности"),
         false) := by
  unfold execute
  rw [h1]
  simp [h2]

/-- Witness for the amended C8 at the command rm. -/
theorem c8_rejects_outside_allowlist_witness :
    execute "rm -rf tmp" (SubpOutcome.completed "" "" 0)
      = (ExecResult.errorRes ("Команда " ++ strLower "rm" ++ " не разрешена для безопасности"),
         false) :=
  c8_rejects_outside_allowlist "rm -rf tmp" (SubpOutcome.completed "" "" 0) "rm"
    (by decide) (by decide)

/-- Claim C9: the stored timestamp of an appended turn is the string of
the memory file modification time taken before the write (the empty
string when the file does not yet exist); the stored document does not
depend on the actual occurrence time of the turn, while a successful
write stamps the file with that occurrence time. -/
theorem c9_timestamp_from_mtime (m : Memory) (f : MemFile) (now now' : Int)
    (uq ar : String) (s : Option String) :
    ((add_conversation m f now uq ar s).1.conversations.getLast?).map Conversation.timestamp
      = some (if f.state = FileState.absent then "" else toString f.mtime)
    ∧ (add_conversation m f now uq ar s).1 = (add_conversation m f now' uq ar s).1
    ∧ (f.writable = true → (add_conversation m f now uq ar s).2.mtime = now) := by
  refine ⟨?_, rfl, ?_⟩
  · show ((appendTurn m.conversations (mkConversation f uq ar s)).getLast?).map
        Conversation.timestamp = _
    rw [getLast?_appendTurn]
    rfl
  · intro hw
    simp [add_conversation, save_memory, writeMemoryFile, hw]

/-- Witness for C9: file last modified at time 5, turn occurring at time
7; the stored timestamp renders 5 while the file is then stamped 7. -/
theorem c9_timestamp_from_mtime_witness :
    ((add_conversation emptyMemory fStored 7 "u" "r" none).1.conversations.getLast?).map
        Conversation.timestamp
      = some (if fStored.state = FileState.absent then "" else toString fStored.mtime)
    ∧ (add_conversation emptyMemory fStored 7 "u" "r" none).1
        = (add_conversation emptyMemory fStored 8 "u" "r" none).1
    ∧ (add_conversation emptyMemory fStored 7 "u" "r" none).2.mtime = 7 :=
  ⟨(c9_timestamp_from_mtime emptyMemory fStored 7 8 "u" "r" none).1,
   (c9_timestamp_from_mtime emptyMemory fStored 7 8 "u" "r" none).2.1,
   (c9_timestamp_from_mtime emptyMemory fStored 7 8 "u" "r" none).2.2 rfl⟩

/-- Claim C10: the subprocess is invoked exactly when the lowercased first
whitespace-separated token is a member of the fixed allow-list; LS is
accepted case-insensitively, cd is allowed, and an empty or
all-whitespace command yields an error result without a subprocess. -/
theorem c10_allowlist_membership (command : String) (sys : SubpOutcome) :
    ((execute command sys).2 = true
      ↔ ∃ t, firstToken command = some t ∧ strLower t ∈ ALLOWED_COMMANDS)
    ∧ ALLOWED_COMMANDS = ["ls", "dir", "pwd", "cd", "echo", "cat", "type", "date", "time"]
    ∧ (execute "LS" sys).2 = true
    ∧ (execute "cd" sys).2 = true
    ∧ execute "" sys = (ExecResult.errorRes "Пустая команда", false)
    ∧ execute "   " sys = (ExecResult.errorRes "Пустая команда", false) := by
  have key : ∀ (cmd : String) (sy : SubpOutcome),
      (execute cmd sy).2 = true
        ↔ ∃ t, firstToken cmd = some t ∧ strLower t ∈ ALLOWED_COMMANDS := by
    intro cmd sy
    unfold execute
    cases hf : firstToken cmd with
    | none => simp
    | some t =>
      by_cases hm : strLower t ∈ ALLOWED_COMMANDS
      · cases sy <;> simp [hm]
      · simp [hm]
  refine ⟨key command sys, rfl, ?_, ?_, ?_, ?_⟩
  · exact (key "LS" sys).mpr ⟨"LS", by decide, by decide⟩
  · exact (key "cd" sys).mpr ⟨"cd", by decide, by decide⟩
  · unfold execute
    rw [show firstToken "" = none from by decide]
  · unfold execute
    rw [show firstToken "   " = none from by decide]
